import Mathlib

/-!
Verification of the SQLCipher connection-pool core of the todo example
(src/examples/todo/src/main.rs): the connection wrapper and its Deref
delegation, the delegating ManageConnection implementation, the
hardening Customizer, pool construction from configuration, the
startup migration fairing, and the todo form handler.

The diesel r2d2 pool, the inner diesel ConnectionManager and the
rocket_sync_db_pools glue are library code that the repository only
configures; those parts are modelled from the spec (sections 4.2-4.5)
and each such definition says so in its doc comment.  Everything else
is translated directly from main.rs.
-/

/-- Fault model for the external world: the outcome of the n-th attempt
to open a raw connection, the outcome of executing a given batch on a
given connection (keyed by connection id and SQL text), the outcome of
the health probes, and the outcome of the startup migration run.
In each case a result of none means success. -/
structure Env where
  connectOutcome : Nat → Option String
  batchOutcome : Nat → String → Option String
  validOutcome : Nat → Option String
  brokenOutcome : Nat → Bool
  migrationOutcome : Option String

/-- A raw diesel SqliteConnection handle.  `id` is the creation index
(fresh per connection), `applied` records the batches durably applied
to the connection, `execLog` records every batch_execute call issued
on it, successful or not. -/
structure RawConn where
  id : Nat
  applied : List String
  execLog : List String
deriving DecidableEq

/-- Modelled from the spec: diesel's SimpleConnection::batch_execute is
not in src/.  Per spec section 4.3 the four settings "are applied as
one batch"; a batch either succeeds as a whole (appended to `applied`)
or fails leaving `applied` unchanged.  Every call is recorded in
`execLog`. -/
def RawConn.batch_execute (env : Env) (c : RawConn) (sql : String) :
    Option String × RawConn :=
  match env.batchOutcome c.id sql with
  | none => (none, { c with applied := c.applied ++ [sql], execLog := c.execLog ++ [sql] })
  | some e => (some e, { c with execLog := c.execLog ++ [sql] })

/-- pub struct SqlcipherConnection(diesel::SqliteConnection); the field
`inner` is the tuple field .0 of the source. -/
structure SqlcipherConnection where
  inner : RawConn
deriving DecidableEq

/-- impl Deref for SqlcipherConnection: fn deref(&self) returns &self.0. -/
def SqlcipherConnection.deref (c : SqlcipherConnection) : RawConn :=
  c.inner

/-- impl DerefMut for SqlcipherConnection: fn deref_mut(&mut self)
returns &mut self.0.  In the pure embedding a mutable borrow is a
function updating the inner connection. -/
def SqlcipherConnection.deref_mut (c : SqlcipherConnection) (f : RawConn → RawConn) :
    SqlcipherConnection :=
  { c with inner := f c.inner }

/-- The inner diesel::r2d2::ConnectionManager<SqliteConnection>,
holding the database url it connects to. -/
structure ConnectionManager where
  url : String
deriving DecidableEq

/-- Modelled from the spec: the inner diesel manager's connect is not
in src/.  Per spec section 4.2 it "opens a new RawConnection at the
configured location"; the fresh connection has had nothing executed on
it.  `idx` is the creation index used to key the fault model. -/
def ConnectionManager.connect (env : Env) (_m : ConnectionManager) (idx : Nat) :
    Except String RawConn :=
  match env.connectOutcome idx with
  | none => Except.ok { id := idx, applied := [], execLog := [] }
  | some e => Except.error e

/-- Modelled from the spec: the inner manager's is_valid issues a
lightweight round trip whose outcome the fault model decides. -/
def ConnectionManager.is_valid (env : Env) (_m : ConnectionManager) (c : RawConn) :
    Except String Unit :=
  match env.validOutcome c.id with
  | none => Except.ok ()
  | some e => Except.error e

/-- Modelled from the spec: the inner manager's has_broken is a cheap
synchronous check whose outcome the fault model decides. -/
def ConnectionManager.has_broken (env : Env) (_m : ConnectionManager) (c : RawConn) : Bool :=
  env.brokenOutcome c.id

/-- pub struct SqlcipherConnectionManager(diesel::r2d2::ConnectionManager<...>);
the field `inner` is the tuple field .0 of the source. -/
structure SqlcipherConnectionManager where
  inner : ConnectionManager
deriving DecidableEq

/-- fn connect(&self) = self.0.connect().map(|x| SqlcipherConnection(x)). -/
def SqlcipherConnectionManager.connect (env : Env) (m : SqlcipherConnectionManager)
    (idx : Nat) : Except String SqlcipherConnection :=
  (m.inner.connect env idx).map (fun x => SqlcipherConnection.mk x)

/-- fn is_valid(&self, conn) = self.0.is_valid(&mut conn.0). -/
def SqlcipherConnectionManager.is_valid (env : Env) (m : SqlcipherConnectionManager)
    (c : SqlcipherConnection) : Except String Unit :=
  m.inner.is_valid env c.inner

/-- fn has_broken(&self, conn) = self.0.has_broken(&mut conn.0). -/
def SqlcipherConnectionManager.has_broken (env : Env) (m : SqlcipherConnectionManager)
    (c : SqlcipherConnection) : Bool :=
  m.inner.has_broken env c.inner

/-- diesel::r2d2::Error as used by the customizer: on_acquire wraps a
batch failure in Error::QueryError. -/
inductive R2d2Error where
  | ConnectionError (msg : String)
  | QueryError (msg : String)
deriving DecidableEq

/-- The pragma batch of Customizer::on_acquire, written in the source
as one string literal over four continued lines (the backslash line
continuations join the segments with no intervening whitespace). -/
def hardeningBatch : String :=
  "PRAGMA key = apples;" ++ "PRAGMA journal_mode = WAL;" ++
    "PRAGMA busy_timeout = 1000;" ++ "PRAGMA foreign_keys = ON;"

/-- Semicolon-terminated statements of a batch string (helper used to
state how many settings the hardening batch issues). -/
def splitStatementsAux : List Char → List Char → List (List Char)
  | [], acc => if acc.isEmpty then [] else [acc.reverse]
  | c :: rest, acc =>
    if c = ';' then acc.reverse :: splitStatementsAux rest []
    else splitStatementsAux rest (c :: acc)

/-- The list of individual statements a batch string submits. -/
def batchStatements (s : String) : List String :=
  (splitStatementsAux s.data []).map List.asString

/-- fn on_acquire(&self, conn: &mut SqlcipherConnection): executes the
hardening batch on conn.0 via one batch_execute call, maps a failure
through Error::QueryError and the ? operator, otherwise returns Ok(()).
The returned connection is conn's state after the call (conn is a
mutable borrow in the source). -/
def Customizer.on_acquire (env : Env) (conn : SqlcipherConnection) :
    Except R2d2Error Unit × SqlcipherConnection :=
  match RawConn.batch_execute env conn.inner hardeningBatch with
  | (some e, c) => (Except.error (R2d2Error.QueryError e), { conn with inner := c })
  | (none, c) => (Except.ok (), { conn with inner := c })

/-- rocket_sync_db_pools::Config as read by Config::from(db_name, rocket):
url, pool_size and timeout (in seconds) of the named configuration block. -/
structure Config where
  url : String
  pool_size : Nat
  timeout : Nat
deriving DecidableEq

/-- core::time::Duration::from_secs, rendered as a nanosecond count. -/
def Duration.from_secs (n : Nat) : Nat :=
  n * 1000000000

/-- Errors a checkout can surface: the configured acquisition timeout
elapsed, the factory failed to open a connection, or the customizer's
on_acquire failed. -/
inductive PoolError where
  | timedOut
  | connectFailed (msg : String)
  | initFailed (e : R2d2Error)
deriving DecidableEq

/-- Modelled from the spec: the r2d2 Pool built by Poolable::pool is
not in src/.  State of the pool per spec sections 3 and 4.4: the
configured url, max_size and timeout, the Idle connections, the
CheckedOut connections, the number of blocked waiters, the number of
creation attempts so far (`created`, which keys the fault model), plus
two history logs used to state the invariants: `acquireLog` holds the
id of every connection on_acquire was ever invoked on, `grantedLog`
every connection ever handed to a caller by checkout. -/
structure PoolState where
  url : String
  max_size : Nat
  timeoutNanos : Nat
  idle : List SqlcipherConnection
  checkedOut : List SqlcipherConnection
  waiters : Nat
  created : Nat
  acquireLog : List Nat
  grantedLog : List SqlcipherConnection
deriving DecidableEq

/-- Result of a single checkout request. -/
inductive CheckoutOutcome where
  | granted (c : SqlcipherConnection)
  | failed (e : PoolError)
  | blocked
deriving DecidableEq

/-- Modelled from the spec: one checkout request (spec section 4.4).
An Idle connection is granted directly; otherwise, if fewer than
max_size connections exist, the factory's connect runs and on success
on_acquire runs exactly once on the fresh connection — a connect
failure or an on_acquire failure is surfaced and the connection is
discarded; otherwise the request blocks, joining the waiter queue. -/
def PoolState.checkout (env : Env) (p : PoolState) :
    CheckoutOutcome × PoolState :=
  match p.idle with
  | c :: rest =>
    (CheckoutOutcome.granted c,
      { p with idle := rest, checkedOut := c :: p.checkedOut,
               grantedLog := p.grantedLog ++ [c] })
  | [] =>
    if p.checkedOut.length < p.max_size then
      match SqlcipherConnectionManager.connect env ⟨⟨p.url⟩⟩ p.created with
      | Except.error e =>
        (CheckoutOutcome.failed (PoolError.connectFailed e),
          { p with created := p.created + 1 })
      | Except.ok c =>
        match Customizer.on_acquire env c with
        | (Except.error e, _) =>
          (CheckoutOutcome.failed (PoolError.initFailed e),
            { p with created := p.created + 1,
                     acquireLog := p.acquireLog ++ [c.inner.id] })
        | (Except.ok _, c2) =>
          (CheckoutOutcome.granted c2,
            { p with created := p.created + 1,
                     checkedOut := c2 :: p.checkedOut,
                     acquireLog := p.acquireLog ++ [c.inner.id],
                     grantedLog := p.grantedLog ++ [c2] })
    else
      (CheckoutOutcome.blocked, { p with waiters := p.waiters + 1 })

/-- Removes the i-th element of a list, returning it and the remainder. -/
def pickOut : List SqlcipherConnection → Nat →
    Option (SqlcipherConnection × List SqlcipherConnection)
  | [], _ => none
  | c :: rest, 0 => some (c, rest)
  | c :: rest, Nat.succ i =>
    match pickOut rest i with
    | none => none
    | some (d, rest2) => some (d, c :: rest2)

/-- Result of returning a connection to the pool. -/
inductive RetOutcome where
  | pooled
  | evicted
  | handedToWaiter (c : SqlcipherConnection)
  | invalid
deriving DecidableEq

/-- Modelled from the spec: a caller returns the i-th CheckedOut
connection (spec section 4.4, CheckedOut to Idle transition).  The pool
runs has_broken and is_valid through the manager before admitting the
connection back: a broken or invalid connection is evicted and its
slot freed; otherwise, if a waiter is queued, the connection is handed
to that waiter, else it becomes Idle. -/
def PoolState.ret (env : Env) (p : PoolState) (i : Nat) :
    RetOutcome × PoolState :=
  match pickOut p.checkedOut i with
  | none => (RetOutcome.invalid, p)
  | some (c, rest) =>
    if SqlcipherConnectionManager.has_broken env ⟨⟨p.url⟩⟩ c
        ∨ (SqlcipherConnectionManager.is_valid env ⟨⟨p.url⟩⟩ c).isOk = false then
      (RetOutcome.evicted, { p with checkedOut := rest })
    else if 0 < p.waiters then
      (RetOutcome.handedToWaiter c,
        { p with checkedOut := c :: rest, waiters := p.waiters - 1,
                 grantedLog := p.grantedLog ++ [c] })
    else
      (RetOutcome.pooled, { p with checkedOut := rest, idle := c :: p.idle })

/-- Modelled from the spec: the configured acquisition timeout elapses
for one blocked waiter, which then fails with a timeout error and
receives no connection (spec section 4.4 checkout contract). -/
def PoolState.expire (p : PoolState) : Option PoolError × PoolState :=
  if 0 < p.waiters then
    (some PoolError.timedOut, { p with waiters := p.waiters - 1 })
  else
    (none, p)

/-- Pool events an execution interleaves: a checkout request, a return
of the i-th outstanding connection, or a waiter's timeout expiry. -/
inductive PoolOp where
  | checkout
  | ret (i : Nat)
  | expire
deriving DecidableEq

/-- One pool transition, dropping the outcome. -/
def PoolState.step (env : Env) (p : PoolState) : PoolOp → PoolState
  | PoolOp.checkout => (p.checkout env).2
  | PoolOp.ret i => (p.ret env i).2
  | PoolOp.expire => p.expire.2

/-- Runs a sequence of pool events. -/
def runPool (env : Env) (p : PoolState) : List PoolOp → PoolState
  | [] => p
  | op :: ops => runPool env (p.step env op) ops

/-- The pool as built by Poolable::pool from a Config: empty, with
max_size = config.pool_size, connection_timeout =
Duration::from_secs(config.timeout) and the manager's url =
config.url. -/
def initialPool (cfg : Config) : PoolState :=
  { url := cfg.url, max_size := cfg.pool_size,
    timeoutNanos := Duration.from_secs cfg.timeout,
    idle := [], checkedOut := [], waiters := 0, created := 0,
    acquireLog := [], grantedLog := [] }

/-- fn pool(db_name, rocket) of impl Poolable for SqlcipherConnection:
reads the named configuration block (the ? operator propagates a
configuration error), builds the SqlcipherConnectionManager on
config.url and the r2d2 pool with the Customizer, max_size =
config.pool_size and connection_timeout =
Duration::from_secs(config.timeout). -/
def Poolable.pool (cfgResult : Except String Config) : Except String PoolState :=
  match cfgResult with
  | Except.error e => Except.error e
  | Except.ok cfg => Except.ok (initialPool cfg)

/-- Outcome of a startup step: either the rocket continues igniting
with the pool in the given state, or a panic aborts the process (the
source uses .expect, which panics). -/
inductive StartupResult where
  | ignited (p : PoolState)
  | aborted (msg : String)
deriving DecidableEq

/-- Modelled from the spec: DbConn::get_one (rocket_sync_db_pools, not
in src/) performs one checkout from the pool, yielding the connection
when granted and nothing otherwise. -/
def DbConn.get_one (env : Env) (p : PoolState) :
    Option SqlcipherConnection × PoolState :=
  match p.checkout env with
  | (CheckoutOutcome.granted c, q) => (some c, q)
  | (_, q) => (none, q)

/-- async fn run_migrations(rocket): DbConn::get_one(&rocket).await
.expect("database connection") — a failed acquisition panics — then
.run(|conn| conn.run_pending_migrations(MIGRATIONS).expect("diesel
migrations")) — a failed migration run panics — after which the
connection handle is dropped, returning it to the pool (the granted
connection sits at the head of checkedOut, index 0). -/
def run_migrations (env : Env) (p : PoolState) : StartupResult :=
  match DbConn.get_one env p with
  | (none, _) => StartupResult.aborted "database connection"
  | (some _, q) =>
    match env.migrationOutcome with
    | some _ => StartupResult.aborted "diesel migrations"
    | none => StartupResult.ignited (q.ret env 0).2

/-- fn rocket(): attaches DbConn::fairing() (which builds the pool via
Poolable::pool) and the "Run Migrations" AdHoc::on_ignite fairing;
ignition therefore builds the pool from the configuration and runs
run_migrations on it before the server serves traffic, and a
configuration failure or a panic in run_migrations aborts startup. -/
def rocketIgnite (env : Env) (cfgResult : Except String Config) : StartupResult :=
  match Poolable.pool cfgResult with
  | Except.error e => StartupResult.aborted e
  | Except.ok p => run_migrations env p

/-- The todo form payload; only its description field is inspected by
the new handler (the remaining fields live in the task module, which
is outside this file's scope). -/
structure Todo where
  description : String
deriving DecidableEq

/-- Flash redirect responses produced by the new handler. -/
inductive FlashRedirect where
  | error (target : String) (msg : String)
  | success (target : String) (msg : String)
deriving DecidableEq

/-- async fn new(todo_form, conn): if todo.description.is_empty() an
error flash is returned immediately; otherwise Task::insert runs and
its failure or success picks the flash.  Task::insert (task module) is
passed in as `ins`, a state transformer returning an optional error
together with the database state after the call; `σ` is the abstract
database state. -/
def newHandler {σ : Type} (ins : Todo → σ → Option String × σ)
    (todo : Todo) (db : σ) : FlashRedirect × σ :=
  if todo.description.isEmpty then
    (FlashRedirect.error "/" "Description cannot be empty.", db)
  else
    match ins todo db with
    | (some _, db2) =>
      (FlashRedirect.error "/" "Todo could not be inserted due an internal error.", db2)
    | (none, db2) =>
      (FlashRedirect.success "/" "Todo successfully added.", db2)

/-- Instruments an insert function with a flag recording whether it was
ever invoked. -/
def trackCalls {σ : Type} (ins : Todo → σ → Option String × σ) :
    Todo → σ × Bool → Option String × (σ × Bool) :=
  fun t sb =>
    ((ins t sb.1).1, ((ins t sb.1).2, true))

/-! ### Helper lemmas -/

/-- The connection produced by a successful on_acquire on a fresh
factory connection: the hardening batch is its only applied batch. -/
def hardenedConn (idx : Nat) : SqlcipherConnection :=
  ⟨⟨idx, [hardeningBatch], [hardeningBatch]⟩⟩

lemma pickOut_mem {l : List SqlcipherConnection} {i : Nat} {c : SqlcipherConnection}
    {rest : List SqlcipherConnection} (h : pickOut l i = some (c, rest)) : c ∈ l := by
  induction l generalizing i rest with
  | nil => simp [pickOut] at h
  | cons a as ih =>
    cases i with
    | zero =>
      simp [pickOut] at h
      simp [h.1]
    | succ j =>
      simp only [pickOut] at h
      cases hp : pickOut as j with
      | none => rw [hp] at h; exact absurd h (by simp)
      | some dr =>
        obtain ⟨d, dr2⟩ := dr
        rw [hp] at h
        simp at h
        obtain ⟨h1, _⟩ := h
        rw [h1] at hp
        exact List.mem_cons_of_mem a (ih hp)

lemma pickOut_rest_subset {l : List SqlcipherConnection} {i : Nat}
    {c : SqlcipherConnection} {rest : List SqlcipherConnection}
    (h : pickOut l i = some (c, rest)) : ∀ x ∈ rest, x ∈ l := by
  induction l generalizing i rest with
  | nil => simp [pickOut] at h
  | cons a as ih =>
    cases i with
    | zero =>
      simp [pickOut] at h
      intro x hx
      right
      exact h.2 ▸ hx
    | succ j =>
      simp only [pickOut] at h
      cases hp : pickOut as j with
      | none => rw [hp] at h; exact absurd h (by simp)
      | some dr =>
        obtain ⟨d, dr2⟩ := dr
        rw [hp] at h
        simp at h
        obtain ⟨h1, h2⟩ := h
        rw [h1] at hp
        intro x hx
        rw [← h2] at hx
        rcases List.mem_cons.mp hx with hxa | hxr
        · simp [hxa]
        · exact List.mem_cons_of_mem a (ih hp x hxr)

lemma pickOut_length {l : List SqlcipherConnection} {i : Nat}
    {c : SqlcipherConnection} {rest : List SqlcipherConnection}
    (h : pickOut l i = some (c, rest)) : l.length = rest.length + 1 := by
  induction l generalizing i rest with
  | nil => simp [pickOut] at h
  | cons a as ih =>
    cases i with
    | zero =>
      simp [pickOut] at h
      simp [← h.2]
    | succ j =>
      simp only [pickOut] at h
      cases hp : pickOut as j with
      | none => rw [hp] at h; exact absurd h (by simp)
      | some dr =>
        obtain ⟨d, dr2⟩ := dr
        rw [hp] at h
        simp at h
        obtain ⟨h1, h2⟩ := h
        rw [h1] at hp
        have := ih hp
        simp [← h2, this]

lemma checkout_idle_eq {env : Env} {p : PoolState} {c : SqlcipherConnection}
    {rest : List SqlcipherConnection} (h : p.idle = c :: rest) :
    p.checkout env =
      (CheckoutOutcome.granted c,
        { p with idle := rest, checkedOut := c :: p.checkedOut,
                 grantedLog := p.grantedLog ++ [c] }) := by
  unfold PoolState.checkout
  rw [h]

lemma checkout_connect_err_eq {env : Env} {p : PoolState} {e : String}
    (hidle : p.idle = []) (hlt : p.checkedOut.length < p.max_size)
    (hconn : env.connectOutcome p.created = some e) :
    p.checkout env =
      (CheckoutOutcome.failed (PoolError.connectFailed e),
        { p with created := p.created + 1 }) := by
  unfold PoolState.checkout
  rw [hidle]
  simp [hlt, SqlcipherConnectionManager.connect, ConnectionManager.connect, hconn,
    Except.map]

lemma checkout_init_err_eq {env : Env} {p : PoolState} {e : String}
    (hidle : p.idle = []) (hlt : p.checkedOut.length < p.max_size)
    (hconn : env.connectOutcome p.created = none)
    (hbatch : env.batchOutcome p.created hardeningBatch = some e) :
    p.checkout env =
      (CheckoutOutcome.failed (PoolError.initFailed (R2d2Error.QueryError e)),
        { p with created := p.created + 1,
                 acquireLog := p.acquireLog ++ [p.created] }) := by
  unfold PoolState.checkout
  rw [hidle]
  simp [hlt, SqlcipherConnectionManager.connect, ConnectionManager.connect, hconn,
    Except.map, Customizer.on_acquire, RawConn.batch_execute, hbatch]

lemma checkout_create_ok_eq {env : Env} {p : PoolState}
    (hidle : p.idle = []) (hlt : p.checkedOut.length < p.max_size)
    (hconn : env.connectOutcome p.created = none)
    (hbatch : env.batchOutcome p.created hardeningBatch = none) :
    p.checkout env =
      (CheckoutOutcome.granted (hardenedConn p.created),
        { p with created := p.created + 1,
                 checkedOut := hardenedConn p.created :: p.checkedOut,
                 acquireLog := p.acquireLog ++ [p.created],
                 grantedLog := p.grantedLog ++ [hardenedConn p.created] }) := by
  unfold PoolState.checkout
  rw [hidle]
  simp [hlt, SqlcipherConnectionManager.connect, ConnectionManager.connect, hconn,
    Except.map, Customizer.on_acquire, RawConn.batch_execute, hbatch, hardenedConn]

lemma checkout_full_eq {env : Env} {p : PoolState}
    (hidle : p.idle = []) (hge : ¬ p.checkedOut.length < p.max_size) :
    p.checkout env = (CheckoutOutcome.blocked, { p with waiters := p.waiters + 1 }) := by
  unfold PoolState.checkout
  rw [hidle]
  simp [hge]

/-- The pool invariant: the connection count is bounded by max_size;
every connection held by the pool or ever granted to a caller carries
the hardening batch among its applied batches; on_acquire ran at most
once per connection id; and every connection held or granted had
on_acquire invoked on it. -/
structure PoolInv (p : PoolState) : Prop where
  size_le : p.idle.length + p.checkedOut.length ≤ p.max_size
  idle_hardened : ∀ c ∈ p.idle, hardeningBatch ∈ c.inner.applied
  out_hardened : ∀ c ∈ p.checkedOut, hardeningBatch ∈ c.inner.applied
  granted_hardened : ∀ c ∈ p.grantedLog, hardeningBatch ∈ c.inner.applied
  acquire_nodup : p.acquireLog.Nodup
  acquire_lt : ∀ i ∈ p.acquireLog, i < p.created
  idle_acquired : ∀ c ∈ p.idle, c.inner.id ∈ p.acquireLog
  out_acquired : ∀ c ∈ p.checkedOut, c.inner.id ∈ p.acquireLog
  granted_acquired : ∀ c ∈ p.grantedLog, c.inner.id ∈ p.acquireLog

lemma initialPool_inv (cfg : Config) : PoolInv (initialPool cfg) := by
  constructor <;> simp [initialPool]

lemma checkout_inv {env : Env} {p : PoolState} (h : PoolInv p) :
    PoolInv (p.checkout env).2 := by
  cases hidle : p.idle with
  | cons c rest =>
    rw [checkout_idle_eq hidle]
    have hsize := h.size_le
    rw [hidle] at hsize
    simp only [List.length_cons] at hsize
    constructor
    · simp
      omega
    · intro x hx
      exact h.idle_hardened x (by rw [hidle]; exact List.mem_cons_of_mem c hx)
    · intro x hx
      rcases List.mem_cons.mp hx with hxc | hxo
      · exact hxc ▸ h.idle_hardened c (by rw [hidle]; exact List.mem_cons_self c rest)
      · exact h.out_hardened x hxo
    · intro x hx
      rcases List.mem_append.mp hx with hxo | hxc
      · exact h.granted_hardened x hxo
      · have : x = c := by simpa using hxc
        exact this ▸ h.idle_hardened c (by rw [hidle]; exact List.mem_cons_self c rest)
    · exact h.acquire_nodup
    · exact h.acquire_lt
    · intro x hx
      exact h.idle_acquired x (by rw [hidle]; exact List.mem_cons_of_mem c hx)
    · intro x hx
      rcases List.mem_cons.mp hx with hxc | hxo
      · exact hxc ▸ h.idle_acquired c (by rw [hidle]; exact List.mem_cons_self c rest)
      · exact h.out_acquired x hxo
    · intro x hx
      rcases List.mem_append.mp hx with hxo | hxc
      · exact h.granted_acquired x hxo
      · have : x = c := by simpa using hxc
        exact this ▸ h.idle_acquired c (by rw [hidle]; exact List.mem_cons_self c rest)
  | nil =>
    by_cases hlt : p.checkedOut.length < p.max_size
    · cases hconn : env.connectOutcome p.created with
      | some e =>
        rw [checkout_connect_err_eq hidle hlt hconn]
        exact ⟨h.size_le, h.idle_hardened, h.out_hardened, h.granted_hardened,
          h.acquire_nodup, fun i hi => Nat.lt_succ_of_lt (h.acquire_lt i hi),
          h.idle_acquired, h.out_acquired, h.granted_acquired⟩
      | none =>
        have hnotmem : p.created ∉ p.acquireLog := by
          intro hmem
          exact absurd (h.acquire_lt p.created hmem) (by omega)
        have hnodup : (p.acquireLog ++ [p.created]).Nodup := by
          rw [List.nodup_append]
          refine ⟨h.acquire_nodup, List.nodup_singleton _, ?_⟩
          intro x hx hx1
          have : x = p.created := by simpa using hx1
          exact hnotmem (this ▸ hx)
        have hlt' : ∀ i ∈ p.acquireLog ++ [p.created], i < p.created + 1 := by
          intro i hi
          rcases List.mem_append.mp hi with hio | hic
          · exact Nat.lt_succ_of_lt (h.acquire_lt i hio)
          · have : i = p.created := by simpa using hic
            omega
        cases hbatch : env.batchOutcome p.created hardeningBatch with
        | some e =>
          rw [checkout_init_err_eq hidle hlt hconn hbatch]
          constructor
          · exact h.size_le
          · exact h.idle_hardened
          · exact h.out_hardened
          · exact h.granted_hardened
          · exact hnodup
          · exact hlt'
          · intro x hx
            exact List.mem_append_left _ (h.idle_acquired x hx)
          · intro x hx
            exact List.mem_append_left _ (h.out_acquired x hx)
          · intro x hx
            exact List.mem_append_left _ (h.granted_acquired x hx)
        | none =>
          rw [checkout_create_ok_eq hidle hlt hconn hbatch]
          have hhard : hardeningBatch ∈ (hardenedConn p.created).inner.applied := by
            simp [hardenedConn]
          have hid : (hardenedConn p.created).inner.id = p.created := by
            simp [hardenedConn]
          constructor
          · simp only [List.length_cons, hidle, List.length_nil]
            omega
          · intro x hx
            exact h.idle_hardened x hx
          · intro x hx
            rcases List.mem_cons.mp hx with hxc | hxo
            · exact hxc ▸ hhard
            · exact h.out_hardened x hxo
          · intro x hx
            rcases List.mem_append.mp hx with hxo | hxc
            · exact h.granted_hardened x hxo
            · have : x = hardenedConn p.created := by simpa using hxc
              exact this ▸ hhard
          · exact hnodup
          · exact hlt'
          · intro x hx
            exact List.mem_append_left _ (h.idle_acquired x hx)
          · intro x hx
            rcases List.mem_cons.mp hx with hxc | hxo
            · rw [hxc, hid]
              exact List.mem_append_right _ (by simp)
            · exact List.mem_append_left _ (h.out_acquired x hxo)
          · intro x hx
            rcases List.mem_append.mp hx with hxo | hxc
            · exact List.mem_append_left _ (h.granted_acquired x hxo)
            · have : x = hardenedConn p.created := by simpa using hxc
              rw [this, hid]
              exact List.mem_append_right _ (by simp)
    · rw [checkout_full_eq hidle hlt]
      exact ⟨h.size_le, h.idle_hardened, h.out_hardened, h.granted_hardened,
        h.acquire_nodup, h.acquire_lt, h.idle_acquired, h.out_acquired,
        h.granted_acquired⟩

lemma ret_inv {env : Env} {p : PoolState} {i : Nat} (h : PoolInv p) :
    PoolInv (p.ret env i).2 := by
  unfold PoolState.ret
  split
  next => exact h
  next c rest hpick =>
    have hc : c ∈ p.checkedOut := pickOut_mem hpick
    have hsub : ∀ x ∈ rest, x ∈ p.checkedOut := pickOut_rest_subset hpick
    have hlen : p.checkedOut.length = rest.length + 1 := pickOut_length hpick
    have hs := h.size_le
    split
    next hbr =>
      constructor
      · simp only
        omega
      · exact h.idle_hardened
      · exact fun x hx => h.out_hardened x (hsub x hx)
      · exact h.granted_hardened
      · exact h.acquire_nodup
      · exact h.acquire_lt
      · exact h.idle_acquired
      · exact fun x hx => h.out_acquired x (hsub x hx)
      · exact h.granted_acquired
    next hbr =>
      split
      next hw =>
        constructor
        · simp only [List.length_cons]
          omega
        · exact h.idle_hardened
        · intro x hx
          rcases List.mem_cons.mp hx with hxc | hxr
          · exact hxc ▸ h.out_hardened c hc
          · exact h.out_hardened x (hsub x hxr)
        · intro x hx
          rcases List.mem_append.mp hx with hxo | hxc
          · exact h.granted_hardened x hxo
          · have : x = c := by simpa using hxc
            exact this ▸ h.out_hardened c hc
        · exact h.acquire_nodup
        · exact h.acquire_lt
        · exact h.idle_acquired
        · intro x hx
          rcases List.mem_cons.mp hx with hxc | hxr
          · exact hxc ▸ h.out_acquired c hc
          · exact h.out_acquired x (hsub x hxr)
        · intro x hx
          rcases List.mem_append.mp hx with hxo | hxc
          · exact h.granted_acquired x hxo
          · have : x = c := by simpa using hxc
            exact this ▸ h.out_acquired c hc
      next hw =>
        constructor
        · simp only [List.length_cons]
          omega
        · intro x hx
          rcases List.mem_cons.mp hx with hxc | hxi
          · exact hxc ▸ h.out_hardened c hc
          · exact h.idle_hardened x hxi
        · exact fun x hx => h.out_hardened x (hsub x hx)
        · exact h.granted_hardened
        · exact h.acquire_nodup
        · exact h.acquire_lt
        · intro x hx
          rcases List.mem_cons.mp hx with hxc | hxi
          · exact hxc ▸ h.out_acquired c hc
          · exact h.idle_acquired x hxi
        · exact fun x hx => h.out_acquired x (hsub x hx)
        · exact h.granted_acquired

lemma expire_inv {p : PoolState} (h : PoolInv p) : PoolInv p.expire.2 := by
  unfold PoolState.expire
  by_cases hw : 0 < p.waiters
  · rw [if_pos hw]
    exact ⟨h.size_le, h.idle_hardened, h.out_hardened, h.granted_hardened,
      h.acquire_nodup, h.acquire_lt, h.idle_acquired, h.out_acquired,
      h.granted_acquired⟩
  · rw [if_neg hw]
    exact h

lemma step_inv {env : Env} {p : PoolState} {op : PoolOp} (h : PoolInv p) :
    PoolInv (p.step env op) := by
  cases op with
  | checkout => exact checkout_inv h
  | ret i => exact ret_inv h
  | expire => exact expire_inv h

lemma run_inv (env : Env) {p : PoolState} (ops : List PoolOp) (h : PoolInv p) :
    PoolInv (runPool env p ops) := by
  induction ops generalizing p with
  | nil => exact h
  | cons op ops ih => exact ih (step_inv h)

lemma step_config (env : Env) (p : PoolState) (op : PoolOp) :
    (p.step env op).url = p.url ∧ (p.step env op).max_size = p.max_size ∧
      (p.step env op).timeoutNanos = p.timeoutNanos := by
  cases op <;>
    unfold PoolState.step PoolState.checkout PoolState.ret PoolState.expire <;>
    (repeat' split) <;> simp

lemma run_config (env : Env) (p : PoolState) (ops : List PoolOp) :
    (runPool env p ops).url = p.url ∧ (runPool env p ops).max_size = p.max_size ∧
      (runPool env p ops).timeoutNanos = p.timeoutNanos := by
  induction ops generalizing p with
  | nil => exact ⟨rfl, rfl, rfl⟩
  | cons op ops ih =>
    obtain ⟨h1, h2, h3⟩ := ih (p.step env op)
    obtain ⟨g1, g2, g3⟩ := step_config env p op
    exact ⟨h1.trans g1, h2.trans g2, h3.trans g3⟩

lemma on_acquire_execLog (env : Env) (conn : SqlcipherConnection) :
    (Customizer.on_acquire env conn).2.inner.execLog =
      conn.inner.execLog ++ [hardeningBatch] := by
  unfold Customizer.on_acquire RawConn.batch_execute
  cases env.batchOutcome conn.inner.id hardeningBatch <;> simp

lemma on_acquire_error_applied (env : Env) (conn : SqlcipherConnection)
    {e : R2d2Error} {c2 : SqlcipherConnection}
    (h : Customizer.on_acquire env conn = (Except.error e, c2)) :
    c2.inner.applied = conn.inner.applied := by
  unfold Customizer.on_acquire RawConn.batch_execute at h
  cases hb : env.batchOutcome conn.inner.id hardeningBatch with
  | none => rw [hb] at h; simp at h
  | some msg =>
    rw [hb] at h
    simp at h
    rw [← h.2]

lemma on_acquire_error_of_batch (env : Env) (conn : SqlcipherConnection)
    {e : String} (h : env.batchOutcome conn.inner.id hardeningBatch = some e) :
    (Customizer.on_acquire env conn).1 = Except.error (R2d2Error.QueryError e) := by
  unfold Customizer.on_acquire RawConn.batch_execute
  rw [h]

lemma ret_waiter_outcome {env : Env} {q : PoolState} {i : Nat}
    {c : SqlcipherConnection} {rest : List SqlcipherConnection}
    (hpick : pickOut q.checkedOut i = some (c, rest))
    (hok : ¬(SqlcipherConnectionManager.has_broken env ⟨⟨q.url⟩⟩ c
      ∨ (SqlcipherConnectionManager.is_valid env ⟨⟨q.url⟩⟩ c).isOk = false))
    (hw : 0 < q.waiters) :
    (q.ret env i).1 = RetOutcome.handedToWaiter c := by
  unfold PoolState.ret
  split
  next h0 => rw [hpick] at h0; exact absurd h0 (by simp)
  next c2 rest2 hpick2 =>
    rw [hpick] at hpick2
    simp at hpick2
    obtain ⟨hc, hrest⟩ := hpick2
    subst hc
    subst hrest
    rw [if_neg hok, if_pos hw]

lemma ret_single (env : Env) {q : PoolState} {c : SqlcipherConnection}
    (hout : q.checkedOut = [c]) (hw : q.waiters = 0) :
    (q.ret env 0).2.checkedOut = [] ∧ (q.ret env 0).2.grantedLog = q.grantedLog ∧
      (q.ret env 0).2.waiters = 0 := by
  unfold PoolState.ret
  simp only [hout, pickOut]
  split
  next => exact ⟨rfl, rfl, hw⟩
  next =>
    have hnw : ¬ 0 < q.waiters := by omega
    rw [if_neg hnw]
    exact ⟨rfl, rfl, hw⟩

lemma get_one_initial {env : Env} {cfg : Config} {c : SqlcipherConnection}
    {q : PoolState} (h : DbConn.get_one env (initialPool cfg) = (some c, q)) :
    c = hardenedConn 0 ∧ q.checkedOut = [hardenedConn 0] ∧ q.waiters = 0 ∧
      q.grantedLog = [hardenedConn 0] := by
  unfold DbConn.get_one at h
  by_cases hlt : (initialPool cfg).checkedOut.length < (initialPool cfg).max_size
  · cases hconn : env.connectOutcome (initialPool cfg).created with
    | some e =>
      rw [checkout_connect_err_eq rfl hlt hconn] at h
      simp at h
    | none =>
      cases hbatch : env.batchOutcome (initialPool cfg).created hardeningBatch with
      | some e =>
        rw [checkout_init_err_eq rfl hlt hconn hbatch] at h
        simp at h
      | none =>
        rw [checkout_create_ok_eq rfl hlt hconn hbatch] at h
        simp at h
        obtain ⟨h1, h2⟩ := h
        refine ⟨h1.symm, ?_, ?_, ?_⟩ <;> rw [← h2] <;> simp [initialPool]
  · rw [checkout_full_eq rfl hlt] at h
    simp at h

/-! ### Concrete fixtures used by the witnesses -/

/-- A fault-free world: every connection attempt, batch, probe and the
migration run succeed. -/
def envOk : Env :=
  { connectOutcome := fun _ => none, batchOutcome := fun _ _ => none,
    validOutcome := fun _ => none, brokenOutcome := fun _ => false,
    migrationOutcome := none }

/-- A world in which every batch execution fails (as with a wrong
encryption key). -/
def envKeyFail : Env :=
  { connectOutcome := fun _ => none, batchOutcome := fun _ _ => some "file is not a database",
    validOutcome := fun _ => none, brokenOutcome := fun _ => false,
    migrationOutcome := none }

/-- A world in which opening a connection fails. -/
def envConnFail : Env :=
  { connectOutcome := fun _ => some "unable to open database file",
    batchOutcome := fun _ _ => none, validOutcome := fun _ => none,
    brokenOutcome := fun _ => false, migrationOutcome := none }

/-- A world in which the startup migration run fails. -/
def envMigFail : Env :=
  { connectOutcome := fun _ => none, batchOutcome := fun _ _ => none,
    validOutcome := fun _ => none, brokenOutcome := fun _ => false,
    migrationOutcome := some "migration error" }

/-- A sample configuration block with two pool slots. -/
def cfgA : Config :=
  { url := "db/db.sqlite", pool_size := 2, timeout := 5 }

/-- A sample configuration block with a single pool slot. -/
def cfgB : Config :=
  { url := "db/db.sqlite", pool_size := 1, timeout := 0 }

/-- A sample fresh raw connection wrapped as a SqlcipherConnection. -/
def connA : SqlcipherConnection :=
  ⟨⟨0, [], []⟩⟩

/-- A todo form with an empty description. -/
def todoEmpty : Todo :=
  { description := "" }

/-- A todo form with a non-empty description. -/
def todoFull : Todo :=
  { description := "buy milk" }

/-- A sample insert that always succeeds, counting rows. -/
def insOk : Todo → Nat → Option String × Nat :=
  fun _ n => (none, n + 1)

/-- A sample insert that always fails, leaving the count alone. -/
def insFail : Todo → Nat → Option String × Nat :=
  fun _ n => (some "UNIQUE constraint failed", n)

/-! ### Claims -/

/-- Claim C3: on_acquire issues exactly four settings — the encryption
key, journal mode set to write-ahead logging, a finite busy-wait
timeout, and foreign-key enforcement ON — as a single atomic batch
(one batch_execute call), so a failure partway leaves no subset of the
settings durably applied. -/
theorem C3_four_settings_one_atomic_batch (env : Env) (conn : SqlcipherConnection) :
    (Customizer.on_acquire env conn).2.inner.execLog =
      conn.inner.execLog ++ [hardeningBatch] ∧
    batchStatements hardeningBatch =
      ["PRAGMA key = apples", "PRAGMA journal_mode = WAL",
       "PRAGMA busy_timeout = 1000", "PRAGMA foreign_keys = ON"] ∧
    (batchStatements hardeningBatch).length = 4 ∧
    (∀ e c2, Customizer.on_acquire env conn = (Except.error e, c2) →
      c2.inner.applied = conn.inner.applied) := by
  refine ⟨on_acquire_execLog env conn, by decide, by decide, ?_⟩
  intro e c2 h
  exact on_acquire_error_applied env conn h

/-- Witness for C3 at a concrete failing world: the single batch is
logged, and after the failure the connection's applied batches are
unchanged from the fresh connection's (none). -/
theorem C3_witness :
    (Customizer.on_acquire envKeyFail connA).2.inner.execLog =
      connA.inner.execLog ++ [hardeningBatch] ∧
    (Customizer.on_acquire envKeyFail connA).2.inner.applied = connA.inner.applied := by
  obtain ⟨h1, _, _, h4⟩ := C3_four_settings_one_atomic_batch envKeyFail connA
  exact ⟨h1, h4 (R2d2Error.QueryError "file is not a database")
    (Customizer.on_acquire envKeyFail connA).2 (by rfl)⟩

/-- Claim C6: the encryption key is the fixed plaintext literal apples
baked into the source: the first statement of the hardening batch is
PRAGMA key = apples; and on_acquire submits that fixed batch on every
connection in every world, independent of any configuration input. -/
theorem C6_fixed_plaintext_key (env : Env) (conn : SqlcipherConnection) :
    hardeningBatch = "PRAGMA key = apples;" ++
      "PRAGMA journal_mode = WAL;PRAGMA busy_timeout = 1000;PRAGMA foreign_keys = ON;" ∧
    (batchStatements hardeningBatch).head? = some "PRAGMA key = apples" ∧
    (Customizer.on_acquire env conn).2.inner.execLog =
      conn.inner.execLog ++ [hardeningBatch] := by
  exact ⟨by decide, by decide, on_acquire_execLog env conn⟩

/-- Claim C7: the factory's connect only opens a raw connection and
wraps it — exactly the inner manager's result mapped through the
wrapper constructor, with no retry; a fresh connection has had no
batch executed on it (none of the hardening pragmas); a connect
failure surfaces the underlying error unchanged. -/
theorem C7_connect_opens_and_wraps_only (env : Env) (m : SqlcipherConnectionManager)
    (idx : Nat) :
    SqlcipherConnectionManager.connect env m idx =
      (ConnectionManager.connect env m.inner idx).map SqlcipherConnection.mk ∧
    (∀ c, SqlcipherConnectionManager.connect env m idx = Except.ok c →
      c.inner.execLog = [] ∧ c.inner.applied = [] ∧ c.inner.id = idx ∧
      hardeningBatch ∉ c.inner.applied) ∧
    (∀ e, env.connectOutcome idx = some e →
      SqlcipherConnectionManager.connect env m idx = Except.error e) := by
  refine ⟨rfl, ?_, ?_⟩
  · intro c hc
    unfold SqlcipherConnectionManager.connect ConnectionManager.connect at hc
    cases ho : env.connectOutcome idx with
    | none =>
      rw [ho] at hc
      simp [Except.map] at hc
      rw [← hc]
      simp
    | some e =>
      rw [ho] at hc
      simp [Except.map] at hc
  · intro e he
    unfold SqlcipherConnectionManager.connect ConnectionManager.connect
    rw [he]
    rfl

/-- Witness for C7 at concrete worlds: a successful connect yields the
fresh unhardened connection, and a failing open surfaces its error. -/
theorem C7_witness :
    SqlcipherConnectionManager.connect envOk ⟨⟨"db/db.sqlite"⟩⟩ 0 = Except.ok connA ∧
    connA.inner.applied = [] ∧
    SqlcipherConnectionManager.connect envConnFail ⟨⟨"db/db.sqlite"⟩⟩ 0 =
      Except.error "unable to open database file" := by
  obtain ⟨_, h2, _⟩ := C7_connect_opens_and_wraps_only envOk ⟨⟨"db/db.sqlite"⟩⟩ 0
  obtain ⟨_, _, h3⟩ := C7_connect_opens_and_wraps_only envConnFail ⟨⟨"db/db.sqlite"⟩⟩ 0
  exact ⟨by rfl, (h2 connA (by rfl)).2.1, h3 "unable to open database file" (by rfl)⟩

/-- Claim C8: the wrapper and its manager are transparent delegates:
deref and deref_mut expose the inner raw connection unchanged, batch
execution through deref is batch execution on the raw connection, and
each manager operation produces exactly the inner manager's result on
the inner connection, errors passed through unreinterpreted. -/
theorem C8_transparent_delegation (env : Env) (m : SqlcipherConnectionManager)
    (c : SqlcipherConnection) (f : RawConn → RawConn) (sql : String) (idx : Nat) :
    c.deref = c.inner ∧
    c.deref_mut f = SqlcipherConnection.mk (f c.inner) ∧
    RawConn.batch_execute env c.deref sql = RawConn.batch_execute env c.inner sql ∧
    SqlcipherConnectionManager.connect env m idx =
      (ConnectionManager.connect env m.inner idx).map SqlcipherConnection.mk ∧
    SqlcipherConnectionManager.is_valid env m c =
      ConnectionManager.is_valid env m.inner c.inner ∧
    SqlcipherConnectionManager.has_broken env m c =
      ConnectionManager.has_broken env m.inner c.inner :=
  ⟨rfl, rfl, rfl, rfl, rfl, rfl⟩

/-- Claim C9: the pool is built exactly as configured — max_size is
the configured pool_size, the acquisition timeout is the configured
timeout in whole seconds, the manager targets the configured url, a
configuration error propagates — and the configured values are never
mutated by any later pool activity. -/
theorem C9_pool_built_as_configured (cfg : Config) (e : String) (env : Env)
    (ops : List PoolOp) :
    Poolable.pool (Except.ok cfg) = Except.ok (initialPool cfg) ∧
    Poolable.pool (Except.error e) = Except.error e ∧
    (initialPool cfg).max_size = cfg.pool_size ∧
    (initialPool cfg).timeoutNanos = Duration.from_secs cfg.timeout ∧
    (initialPool cfg).url = cfg.url ∧
    (runPool env (initialPool cfg) ops).max_size = cfg.pool_size ∧
    (runPool env (initialPool cfg) ops).timeoutNanos = Duration.from_secs cfg.timeout ∧
    (runPool env (initialPool cfg) ops).url = cfg.url := by
  obtain ⟨h1, h2, h3⟩ := run_config env (initialPool cfg) ops
  exact ⟨rfl, rfl, rfl, rfl, rfl, h2, h3, h1⟩

/-- Claim C10: a submitted todo form with an empty description gets an
error flash redirect without Task::insert ever being invoked and with
the database state unchanged (the outcome does not even depend on the
insert function); insert is invoked exactly when the description is
non-empty. -/
theorem C10_empty_description_never_inserts {σ : Type}
    (ins ins2 : Todo → σ → Option String × σ) (todo : Todo) (db : σ) :
    (todo.description = "" →
      newHandler ins todo db =
        (FlashRedirect.error "/" "Description cannot be empty.", db) ∧
      (newHandler (trackCalls ins) todo (db, false)).2.2 = false ∧
      newHandler ins todo db = newHandler ins2 todo db) ∧
    (todo.description ≠ "" →
      (newHandler (trackCalls ins) todo (db, false)).2.2 = true) := by
  constructor
  · intro h
    have he : todo.description.isEmpty = true := (String.isEmpty_iff _).mpr h
    unfold newHandler
    rw [he]
    simp
  · intro h
    have he : todo.description.isEmpty = false := by
      rcases hb : todo.description.isEmpty with _ | _
      · rfl
      · exact absurd ((String.isEmpty_iff _).mp hb) h
    unfold newHandler
    rw [he]
    simp only [Bool.false_eq_true, if_false]
    rcases hi : trackCalls ins todo (db, false) with ⟨o, db2⟩
    have hdb2 : db2.2 = true := by
      unfold trackCalls at hi
      simp at hi
      rw [← hi.2]
    cases o <;> simpa using hdb2

/-- Witness for C10 at concrete inputs: the empty-description form is
rejected with the flash and no insert call against both a succeeding
and a failing insert; the non-empty form does invoke insert. -/
theorem C10_witness :
    newHandler insOk todoEmpty 0 =
      (FlashRedirect.error "/" "Description cannot be empty.", 0) ∧
    (newHandler (trackCalls insOk) todoEmpty (0, false)).2.2 = false ∧
    newHandler insOk todoEmpty 0 = newHandler insFail todoEmpty 0 ∧
    (newHandler (trackCalls insOk) todoFull (0, false)).2.2 = true := by
  obtain ⟨h1, _⟩ := C10_empty_description_never_inserts insOk insFail todoEmpty 0
  obtain ⟨_, g2⟩ := C10_empty_description_never_inserts insOk insFail todoFull 0
  obtain ⟨a, b, c⟩ := h1 (by rfl)
  exact ⟨a, b, c, g2 (by decide)⟩

/-- Claim C1: when the hardening batch fails, on_acquire returns an
error; the checkout that created the connection surfaces that error
and discards the connection, which enters neither the idle list nor
the checked-out list; and in every reachable pool state every
connection ever handed out by checkout carries the hardening batch
among its applied batches. -/
theorem C1_failed_hardening_never_escapes (env : Env) (cfg : Config)
    (ops : List PoolOp) (q : PoolState)
    (hq : q = runPool env (initialPool cfg) ops) :
    (∀ conn e, env.batchOutcome conn.inner.id hardeningBatch = some e →
      (Customizer.on_acquire env conn).1 = Except.error (R2d2Error.QueryError e)) ∧
    (∀ c ∈ q.grantedLog, hardeningBatch ∈ c.inner.applied) ∧
    (∀ e, q.idle = [] → q.checkedOut.length < q.max_size →
      env.connectOutcome q.created = none →
      env.batchOutcome q.created hardeningBatch = some e →
      (q.checkout env).1 =
        CheckoutOutcome.failed (PoolError.initFailed (R2d2Error.QueryError e)) ∧
      (q.checkout env).2.idle = q.idle ∧
      (q.checkout env).2.checkedOut = q.checkedOut ∧
      (q.checkout env).2.grantedLog = q.grantedLog) := by
  subst hq
  refine ⟨fun conn e he => on_acquire_error_of_batch env conn he, ?_, ?_⟩
  · exact (run_inv env ops (initialPool_inv cfg)).granted_hardened
  · intro e hidle hlt hconn hbatch
    rw [checkout_init_err_eq hidle hlt hconn hbatch]
    exact ⟨rfl, rfl, rfl, rfl⟩

/-- Witness for C1 in a world where the hardening batch fails: the
customizer errors, the checkout fails with that initialization error,
and the pool keeps neither an idle nor a checked-out connection. -/
theorem C1_witness :
    (Customizer.on_acquire envKeyFail connA).1 =
      Except.error (R2d2Error.QueryError "file is not a database") ∧
    ((initialPool cfgA).checkout envKeyFail).1 =
      CheckoutOutcome.failed
        (PoolError.initFailed (R2d2Error.QueryError "file is not a database")) ∧
    ((initialPool cfgA).checkout envKeyFail).2.checkedOut = (initialPool cfgA).checkedOut ∧
    ((initialPool cfgA).checkout envKeyFail).2.idle = (initialPool cfgA).idle := by
  obtain ⟨h1, _, h3⟩ :=
    C1_failed_hardening_never_escapes envKeyFail cfgA [] (initialPool cfgA) rfl
  obtain ⟨a, b, c, _⟩ := h3 "file is not a database" rfl (by decide) rfl rfl
  exact ⟨h1 connA "file is not a database" rfl, a, c, b⟩

/-- Claim C2: in every reachable pool state the number of checked-out
connections never exceeds the configured pool_size; a checkout
arriving with no idle connection and max_size connections outstanding
blocks, joining the waiter queue instead of receiving a connection; a
blocked waiter whose timeout elapses fails with a timeout error and
receives no connection; and a returned healthy connection is handed to
a blocked waiter. -/
theorem C2_max_size_never_exceeded (env : Env) (cfg : Config) (ops : List PoolOp)
    (q : PoolState) (hq : q = runPool env (initialPool cfg) ops) :
    q.checkedOut.length ≤ cfg.pool_size ∧
    (q.idle = [] → q.checkedOut.length = q.max_size →
      (q.checkout env).1 = CheckoutOutcome.blocked ∧
      (q.checkout env).2.waiters = q.waiters + 1) ∧
    (0 < q.waiters → q.expire.1 = some PoolError.timedOut ∧
      q.expire.2.checkedOut = q.checkedOut ∧ q.expire.2.idle = q.idle) ∧
    (∀ i c rest, pickOut q.checkedOut i = some (c, rest) →
      ¬(SqlcipherConnectionManager.has_broken env ⟨⟨q.url⟩⟩ c
        ∨ (SqlcipherConnectionManager.is_valid env ⟨⟨q.url⟩⟩ c).isOk = false) →
      0 < q.waiters → (q.ret env i).1 = RetOutcome.handedToWaiter c) := by
  subst hq
  refine ⟨?_, ?_, ?_, ?_⟩
  · have hs := (run_inv env ops (initialPool_inv cfg)).size_le
    have hm : (runPool env (initialPool cfg) ops).max_size = cfg.pool_size :=
      (run_config env (initialPool cfg) ops).2.1
    omega
  · intro hidle heq
    have hge : ¬ (runPool env (initialPool cfg) ops).checkedOut.length <
        (runPool env (initialPool cfg) ops).max_size := by omega
    rw [checkout_full_eq hidle hge]
    exact ⟨rfl, rfl⟩
  · intro hw
    unfold PoolState.expire
    rw [if_pos hw]
    exact ⟨rfl, rfl, rfl⟩
  · intro i c rest hpick hok hw
    exact ret_waiter_outcome hpick hok hw

/-- Witness for C2: with a single-slot pool, one checkout fills the
pool (count 1 of 1), a second checkout blocks, and the blocked
waiter's timeout expiry yields the timeout error. -/
theorem C2_witness :
    (runPool envOk (initialPool cfgB) [PoolOp.checkout]).checkedOut.length ≤
      cfgB.pool_size ∧
    ((runPool envOk (initialPool cfgB) [PoolOp.checkout]).checkout envOk).1 =
      CheckoutOutcome.blocked ∧
    (runPool envOk (initialPool cfgB) [PoolOp.checkout, PoolOp.checkout]).expire.1 =
      some PoolError.timedOut := by
  obtain ⟨h1, h2, _, _⟩ := C2_max_size_never_exceeded envOk cfgB [PoolOp.checkout] _ rfl
  obtain ⟨_, _, h3, _⟩ :=
    C2_max_size_never_exceeded envOk cfgB [PoolOp.checkout, PoolOp.checkout] _ rfl
  exact ⟨h1, (h2 (by decide) (by decide)).1, (h3 (by decide)).1⟩

/-- Claim C4: on_acquire runs at most once per connection id (the
invocation log never holds duplicates), every connection held by or
ever handed out of the pool had on_acquire invoked on it beforehand,
a checkout that creates a connection invokes on_acquire on exactly
that fresh connection immediately after a successful connect, and a
failed connect invokes on_acquire on nothing. -/
theorem C4_on_acquire_exactly_once (env : Env) (cfg : Config) (ops : List PoolOp)
    (q : PoolState) (hq : q = runPool env (initialPool cfg) ops) :
    q.acquireLog.Nodup ∧
    (∀ c ∈ q.grantedLog, c.inner.id ∈ q.acquireLog) ∧
    (∀ c ∈ q.idle, c.inner.id ∈ q.acquireLog) ∧
    (∀ c ∈ q.checkedOut, c.inner.id ∈ q.acquireLog) ∧
    (q.idle = [] → q.checkedOut.length < q.max_size →
      env.connectOutcome q.created = none →
      (q.checkout env).2.acquireLog = q.acquireLog ++ [q.created]) ∧
    (∀ e, q.idle = [] → q.checkedOut.length < q.max_size →
      env.connectOutcome q.created = some e →
      (q.checkout env).2.acquireLog = q.acquireLog) := by
  subst hq
  have hinv := run_inv env ops (initialPool_inv cfg)
  refine ⟨hinv.acquire_nodup, hinv.granted_acquired, hinv.idle_acquired,
    hinv.out_acquired, ?_, ?_⟩
  · intro hidle hlt hconn
    cases hbatch : env.batchOutcome (runPool env (initialPool cfg) ops).created
        hardeningBatch with
    | none => rw [checkout_create_ok_eq hidle hlt hconn hbatch]
    | some e => rw [checkout_init_err_eq hidle hlt hconn hbatch]
  · intro e hidle hlt hconn
    rw [checkout_connect_err_eq hidle hlt hconn]

/-- Witness for C4: after one fault-free checkout the invocation log
is the duplicate-free [0]; a second checkout invokes on_acquire once
on the fresh connection id 1; and with a failing factory the log
stays empty. -/
theorem C4_witness :
    (runPool envOk (initialPool cfgA) [PoolOp.checkout]).acquireLog.Nodup ∧
    ((runPool envOk (initialPool cfgA) [PoolOp.checkout]).checkout envOk).2.acquireLog =
      (runPool envOk (initialPool cfgA) [PoolOp.checkout]).acquireLog ++
        [(runPool envOk (initialPool cfgA) [PoolOp.checkout]).created] ∧
    ((initialPool cfgA).checkout envConnFail).2.acquireLog =
      (initialPool cfgA).acquireLog := by
  obtain ⟨h1, _, _, _, h5, _⟩ :=
    C4_on_acquire_exactly_once envOk cfgA [PoolOp.checkout] _ rfl
  obtain ⟨_, _, _, _, _, g6⟩ :=
    C4_on_acquire_exactly_once envConnFail cfgA [] _ rfl
  exact ⟨h1, h5 (by decide) (by decide) rfl,
    g6 "unable to open database file" rfl (by decide) rfl⟩

/-- Claim C5: at startup exactly one checkout is performed and the
connection is returned — an ignited result has no outstanding
connection and exactly one grant ever made — while a failure to
acquire the connection or to run the pending migrations aborts
startup (the .expect panics), as does a configuration error; with a
valid configuration, ignition is exactly the migration run on the
freshly built pool. -/
theorem C5_startup_runs_migrations_once (env : Env) (cfg : Config) :
    (∀ r, run_migrations env (initialPool cfg) = StartupResult.ignited r →
      env.migrationOutcome = none ∧ r.checkedOut = [] ∧ r.grantedLog.length = 1) ∧
    (∀ e, env.migrationOutcome = some e →
      run_migrations env (initialPool cfg) = StartupResult.aborted "diesel migrations" ∨
      run_migrations env (initialPool cfg) = StartupResult.aborted "database connection") ∧
    (∀ q, DbConn.get_one env (initialPool cfg) = (none, q) →
      run_migrations env (initialPool cfg) = StartupResult.aborted "database connection") ∧
    (∀ e, rocketIgnite env (Except.error e) = StartupResult.aborted e) ∧
    rocketIgnite env (Except.ok cfg) = run_migrations env (initialPool cfg) := by
  refine ⟨?_, ?_, ?_, fun e => rfl, rfl⟩
  · intro r hr
    unfold run_migrations at hr
    rcases hga : DbConn.get_one env (initialPool cfg) with ⟨o, q0⟩
    rw [hga] at hr
    cases o with
    | none => simp at hr
    | some c =>
      cases hmig : env.migrationOutcome with
      | some e => rw [hmig] at hr; simp at hr
      | none =>
        rw [hmig] at hr
        simp at hr
        obtain ⟨hc, hout, hw, hgr⟩ := get_one_initial hga
        obtain ⟨r1, r2, _⟩ := ret_single env hout hw
        rw [← hr]
        exact ⟨rfl, r1, by rw [r2, hgr]; rfl⟩
  · intro e hmig
    unfold run_migrations
    rcases hga : DbConn.get_one env (initialPool cfg) with ⟨o, q0⟩
    cases o with
    | none => right; rfl
    | some c => left; rw [hmig]
  · intro q hq
    unfold run_migrations
    rw [hq]

/-- Witness for C5: in the fault-free world startup ignites with no
outstanding connection and exactly one grant; a failing migration run
aborts with the diesel migrations panic; a failing connection
acquisition aborts with the database connection panic; a missing
configuration block aborts with its error. -/
theorem C5_witness :
    ((((initialPool cfgA).checkout envOk).2).ret envOk 0).2.checkedOut = [] ∧
    ((((initialPool cfgA).checkout envOk).2).ret envOk 0).2.grantedLog.length = 1 ∧
    run_migrations envMigFail (initialPool cfgA) =
      StartupResult.aborted "diesel migrations" ∧
    run_migrations envConnFail (initialPool cfgA) =
      StartupResult.aborted "database connection" ∧
    rocketIgnite envOk (Except.error "missing config block") =
      StartupResult.aborted "missing config block" := by
  obtain ⟨h1, _, _, h4, _⟩ := C5_startup_runs_migrations_once envOk cfgA
  obtain ⟨_, g2, _, _, _⟩ := C5_startup_runs_migrations_once envMigFail cfgA
  obtain ⟨_, _, k3, _, _⟩ := C5_startup_runs_migrations_once envConnFail cfgA
  obtain ⟨_, a2, a3⟩ := h1 ((((initialPool cfgA).checkout envOk).2).ret envOk 0).2 (by rfl)
  refine ⟨a2, a3, ?_, ?_, h4 "missing config block"⟩
  · rcases g2 "migration error" rfl with h | h
    · exact h
    · exact absurd h (by decide)
  · exact k3 (((initialPool cfgA).checkout envConnFail).2) (by rfl)
